import Mathlib

/-!
Verification development for the padwa repository.

Shallow embedding of the core processing pipeline:
  - src/common/batch_processor.py (BatchProcessor.process_batch)
  - src/infrastructure/processing/llm/llm_handler.py (invoke, bulk_invoke)
  - src/infrastructure/processing/embedding/embedding_semantic_clusterer.py
  - src/infrastructure/processing/llm/llm_recursive_summarizer.py
  - src/core/services/act_comparisons_service.py
  - src/core/services/act_change_impact_service.py

External collaborators (the k-means labelling from sklearn, the LLM chain,
the similarity metric from scipy, the top-n document search) are modelled as
explicit function parameters; everything else is translated statement by
statement from the Python source.  Machine floats appear only as opaque
comparison inputs, so similarities are carried as rationals.
-/

namespace Padwa

/-! ## Batch processor (src/common/batch_processor.py)

`process_batch` submits every item to a thread pool and then collects
`future.result()` for each future.  `future.result()` re-raises the exception
of a failed task, so the whole call raises as soon as a failed future is
collected.  A task is modelled as `Except Err A`; completion order is
abstracted to submission order, which is observationally equivalent for
"raises iff some task raised" and for the key-to-value mapping on the success
path. -/

def processBatch {K I A Err : Type} (f : I → Except Err A)
    (itemsWithIds : List (K × I)) : Except Err (List (K × A)) :=
  itemsWithIds.mapM (fun p => (f p.2).map (fun v => (p.1, v)))

/-- `LLMHandler.bulk_invoke`: runs the batch, and on any exception escaping
`process_batch` logs and returns `None` (modelled as `none`).  On the success
path every collected value is a real result, never an exception object, so the
`isinstance(value, Exception)` branch of the source can never fire; the
error-indicator `none` entries therefore never occur. -/
def bulkInvoke {K I A Err : Type} (f : I → Except Err A)
    (argsList : List (K × I)) : Option (List (K × Option A)) :=
  match processBatch f argsList with
  | .ok results => some (results.map (fun p => (p.1, some p.2)))
  | .error _ => none

/-! ## LLM invoke retry loop (src/infrastructure/processing/llm/llm_handler.py)

One call to `chain.invoke` either succeeds, raises `OutputParserException`, or
raises some other exception.  The outcome of attempt number `i` (0-based) is
given by a function `Nat → AttemptOutcome`.  The loop body is translated
directly: `retries` counts parse failures, a parse failure at
`retries + 1 ≥ max_retries` re-raises the last parse error, any other
exception propagates at once, and `time.sleep(delay_seconds)` is recorded in a
sleep log. -/

inductive AttemptOutcome where
  | success (v : Nat)
  | parseFailure (e : Nat)
  | otherFailure (e : Nat)
deriving DecidableEq, Repr

inductive InvokeOutcome where
  | ok (v : Nat)
  | raisedParse (e : Nat)
  | raisedOther (e : Nat)
  | raisedRuntime
deriving DecidableEq, Repr

structure InvokeResult where
  outcome : InvokeOutcome
  attemptsMade : Nat
  sleeps : List Nat
deriving DecidableEq, Repr

/-- The `while retries < max_retries` loop of `LLMHandler.invoke`; `fuel` is
`max_retries - retries`, which bounds the remaining iterations exactly.  When
the loop is never entered (only possible with `max_retries = 0`) the source
falls through to the final `RuntimeError`. -/
def invokeLoop (attempt : Nat → AttemptOutcome) (maxRetries delaySeconds : Nat) :
    Nat → Nat → List Nat → InvokeResult
  | 0, retries, sleeps => ⟨.raisedRuntime, retries, sleeps.reverse⟩
  | fuel + 1, retries, sleeps =>
    match attempt retries with
    | .success v => ⟨.ok v, retries + 1, sleeps.reverse⟩
    | .otherFailure e => ⟨.raisedOther e, retries + 1, sleeps.reverse⟩
    | .parseFailure e =>
      if maxRetries ≤ retries + 1 then ⟨.raisedParse e, retries + 1, sleeps.reverse⟩
      else invokeLoop attempt maxRetries delaySeconds fuel (retries + 1)
        (delaySeconds :: sleeps)

/-- `LLMHandler.invoke` with the attempt outcomes abstracted. -/
def invoke (attempt : Nat → AttemptOutcome) (maxRetries : Nat)
    (delaySeconds : Nat) : InvokeResult :=
  invokeLoop attempt maxRetries delaySeconds maxRetries 0 []

/-! ## Domain base models (src/domain/models/base.py)

`EmbeddableBase` carries `text : Optional[str]` and `embedding` (a vector or
`None`); the vector payload is opaque to all the embedded code, which only
checks presence and hands the vectors to the external k-means, so it is
modelled as `List Int`.  `ChunkClusterBase` adds `level`, `flag`, the member
list `chunks`, and the `llm_summary_response` setter that copies `summary` to
`text` and `flag` to `flag` when present.  Every optional field defaults to
`none` exactly as in the pydantic models. -/

abbrev Emb := List Int

structure ChunkBase where
  id : Option Nat := none
  text : Option String := none
  embedding : Option Emb := none
  referenceId : Option Nat := none
deriving DecidableEq, Repr

structure SummaryResponse where
  summary : Option String := none
  flag : Option Bool := none
deriving DecidableEq, Repr

structure ChunkClusterBase where
  id : Option Nat := none
  text : Option String := none
  embedding : Option Emb := none
  referenceId : Option Nat := none
  parentClusterId : Option Nat := none
  level : Nat := 0
  flag : Option Bool := none
  chunks : List ChunkBase := []
deriving DecidableEq, Repr

/-- The `llm_summary_response` property setter on `ChunkClusterBase`: when a
response is assigned, a non-`None` `summary` overwrites `text` and a
non-`None` `flag` overwrites `flag`; nothing else changes. -/
def applySummary (resp : SummaryResponse) (c : ChunkClusterBase) : ChunkClusterBase :=
  let c1 := match resp.summary with
    | some s => { c with text := some s }
    | none => c
  match resp.flag with
  | some f => { c1 with flag := some f }
  | none => c1

/-! ## Semantic clusterer
(src/infrastructure/processing/embedding/embedding_semantic_clusterer.py)

`KMeans(n_clusters, random_state=42).fit_predict(embeddings)` is external; it
is abstracted as a labelling function `List Emb → Nat → List Nat` taking the
embedding list and the cluster count and returning one label per row.  The
rest of `cluster` is translated line by line, including the
`self.num_clusters = min(num_clusters, len(chunks))` clamp and the
`len(chunks) < self.num_clusters` guard that follows it. -/

abbrev LabelsFn := List Emb → Nat → List Nat

/-- In-place update of the element at index `n` (Python list indexing with a
valid index); out-of-range indices leave the list unchanged. -/
def modifyNth {A : Type} (f : A → A) : Nat → List A → List A
  | _, [] => []
  | 0, a :: as => f a :: as
  | n + 1, a :: as => a :: modifyNth f n as

/-- The sizes `np.array_split` uses for `l` elements in `n` parts: the first
`l % n` parts get `l / n + 1` elements, the rest get `l / n`. -/
def splitSizes (l n : Nat) : List Nat :=
  (List.range n).map (fun i => l / n + if i < l % n then 1 else 0)

def splitBySizes {A : Type} : List A → List Nat → List (List A)
  | _, [] => []
  | xs, s :: rest => xs.take s :: splitBySizes (xs.drop s) rest

/-- `EmbeddingSemanticClusterer._split_into_equal_chunks`: clamp `n` to the
list length, then contiguous near-equal parts in input order. -/
def splitIntoEqualChunks (items : List ChunkBase) (n : Nat) : List (List ChunkBase) :=
  let n := min n items.length
  splitBySizes items (splitSizes items.length n)

/-- The label-assignment loop: `cluster_objects[label].chunks.append(chunks[i])`
over the enumerated label list. -/
def buildClusterLists (pairs : List (ChunkBase × Nat)) (acc : List (List ChunkBase)) :
    List (List ChunkBase) :=
  match pairs with
  | [] => acc
  | (c, lbl) :: rest => buildClusterLists rest (modifyNth (fun l => l ++ [c]) lbl acc)

/-- `EmbeddingSemanticClusterer.cluster`. -/
def cluster (labelsFn : LabelsFn) (chunks : List ChunkBase) (numClusters : Nat) :
    List ChunkClusterBase :=
  if chunks.isEmpty then []
  else if chunks.any (fun c => c.embedding.isNone) then []
  else
    let K := min numClusters chunks.length
    if chunks.length < K then
      (splitIntoEqualChunks chunks K).map (fun l => { chunks := l })
    else
      let embeddings := chunks.map (fun c => c.embedding.getD [])
      let labels := labelsFn embeddings K
      let lists := buildClusterLists (chunks.zip labels) (List.replicate K [])
      lists.map (fun l => { chunks := l })

/-! ## Recursive summarizer
(src/infrastructure/processing/llm/llm_recursive_summarizer.py)

The LLM is abstracted as a total function `String → SummaryResponse` (one
structured response per combined text); `bulk_invoke` keyed by `str(idx)` is
then a list of `(idx, response)` pairs in batch-argument order, which is the
iteration order of the returned dict. -/

abbrev LlmFn := String → SummaryResponse

/-- Python string truthiness for `Optional[str]`: `None` and the empty string
are falsy. -/
def truthy : Option String → Bool
  | none => false
  | some s => s ≠ ""

/-- `"\n\n".join`. -/
def joinNN : List String → String
  | [] => ""
  | [s] => s
  | s :: rest => s ++ "\n\n" ++ joinNN rest

/-- The concatenated member text of a cluster:
`"\n\n".join(chunk.text for chunk in cluster.chunks if chunk.text)`. -/
def combinedText (c : ChunkClusterBase) : String :=
  joinNN (c.chunks.filterMap (fun ch => if truthy ch.text then ch.text else none))

/-- The application of bulk results in `_create_base_clusters` and
`_create_next_level_clusters`: for every `(idx_str, response)` pair the source
converts the key back with `int(idx_str)` and mutates
`valid_clusters[cluster_idx]` when `cluster_idx < len(valid_clusters)`.
`positions` lists, for each valid-cluster position, the index of that cluster
in the full list being returned, so `positions.get? idx` is the object the
source mutates. -/
def applyBatchResults (positions : List Nat) (resps : List (Nat × SummaryResponse))
    (cs : List ChunkClusterBase) : List ChunkClusterBase :=
  resps.foldl (fun acc p =>
    match positions.get? p.1 with
    | some pos => modifyNth (applySummary p.2) pos acc
    | none => acc) cs

/-- `LLMRecursiveSummarizer._create_base_clusters`.  Note two properties of
the source carried over faithfully: the function returns `clusters` (the full
clusterer output, empty-text groups included), and batch keys are indices into
the full `clusters` list while responses are applied to `valid_clusters`
positions. -/
def createBaseClusters (labelsFn : LabelsFn) (llm : LlmFn) (chunks : List ChunkBase)
    (referenceId : Nat) (maxClusters : Nat) : List ChunkClusterBase :=
  let cs := (cluster labelsFn chunks maxClusters).map
    (fun c => { c with referenceId := some referenceId, level := 0 })
  let batchArgs := cs.enum.filterMap (fun p =>
    if p.2.chunks.isEmpty then none
    else if combinedText p.2 = "" then none
    else some (p.1, combinedText p.2))
  let positions := batchArgs.map (fun p => p.1)
  let resps := batchArgs.map (fun p => (p.1, llm p.2))
  applyBatchResults positions resps cs

/-- Assoc-list with Python-dict overwrite semantics, keyed by `Option Nat`
(`cluster_map[chunk.id] = cluster`; `None` is a legal dict key). -/
def insertClusterMap (m : List (Option Nat × ChunkClusterBase)) (k : Option Nat)
    (v : ChunkClusterBase) : List (Option Nat × ChunkClusterBase) :=
  if m.any (fun p => p.1 = k) then
    m.map (fun p => if p.1 = k then (k, v) else p)
  else m ++ [(k, v)]

def lookupClusterMap (m : List (Option Nat × ChunkClusterBase)) (k : Option Nat) :
    Option ChunkClusterBase :=
  (m.find? (fun p => p.1 = k)).map (fun p => p.2)

/-- `LLMRecursiveSummarizer._create_next_level_clusters`.  Pseudo-chunks carry
`id`, `text`, `embedding` of their cluster; `next_level_clusters` and
`valid_meta_clusters` are the same objects, so bulk responses keyed by the
meta-cluster index mutate `next_level_clusters[idx]` when in range. -/
def createNextLevelClusters (labelsFn : LabelsFn) (llm : LlmFn)
    (prevClusters : List ChunkClusterBase) (referenceId : Nat) (level : Nat)
    (maxClusters : Nat) : List ChunkClusterBase :=
  if prevClusters.length ≤ 1 then prevClusters
  else
    let pseudoChunks := prevClusters.map (fun c =>
      ({ id := c.id, text := c.text, embedding := c.embedding } : ChunkBase))
    let clusterMap := prevClusters.foldl (fun m c => insertClusterMap m c.id c) []
    let metaClusters := cluster labelsFn pseudoChunks maxClusters
    let batchArgs := metaClusters.enum.filterMap (fun p =>
      if p.2.chunks.isEmpty then none
      else
        let childTexts := p.2.chunks.filterMap (fun pc =>
          match lookupClusterMap clusterMap pc.id with
          | some child => if truthy child.text then child.text else none
          | none => none)
        if childTexts.isEmpty then none
        else some (p.1, joinNN childTexts))
    let parents := batchArgs.map (fun _ =>
      ({ referenceId := some referenceId, level := level } : ChunkClusterBase))
    let resps := batchArgs.map (fun p => (p.1, llm p.2))
    resps.foldl (fun acc p =>
      if p.1 < acc.length then modifyNth (applySummary p.2) p.1 acc else acc) parents

/-- One run of the `summarize` generator when the caller feeds every yielded
level back unmodified (`updated_clusters = yielded list`).  The first
component collects the yielded levels, the second is `some r` when the
generator returned (`r` being `current_clusters[0] if current_clusters else
None`) and `none` when the fuel ran out before the loop ended. -/
def summarizeLoop (labelsFn : LabelsFn) (llm : LlmFn) (referenceId : Nat)
    (maxClustersPerLevel : Nat) :
    Nat → Nat → List ChunkClusterBase → List (List ChunkClusterBase) →
    List (List ChunkClusterBase) × Option (Option ChunkClusterBase)
  | 0, _, _, acc => (acc.reverse, none)
  | fuel + 1, level, current, acc =>
    if 1 < current.length then
      let level := level + 1
      let currentMaxClusters :=
        if current.length ≤ 3 then 1 else max 1 (maxClustersPerLevel / 2 ^ level)
      let next := createNextLevelClusters labelsFn llm current referenceId level
        currentMaxClusters
      summarizeLoop labelsFn llm referenceId maxClustersPerLevel fuel level next
        (next :: acc)
    else (acc.reverse, some current.head?)

/-- `LLMRecursiveSummarizer.summarize` driven to completion with unmodified
feedback. -/
def summarize (labelsFn : LabelsFn) (llm : LlmFn) (chunks : List ChunkBase)
    (referenceId : Nat) (maxClustersPerLevel : Nat) (fuel : Nat) :
    List (List ChunkClusterBase) × Option (Option ChunkClusterBase) :=
  let base := createBaseClusters labelsFn llm chunks referenceId maxClustersPerLevel
  summarizeLoop labelsFn llm referenceId maxClustersPerLevel fuel 0 base [base]

/-! ## Act comparison service (src/core/services/act_comparisons_service.py)

`extract_article_number` anchors the pattern
`Art\. \d+(\w{0,4})(\s+\(\w*\)\s+)?\.` at the start of the text and returns
the whole match.  The matcher below implements that pattern with the regex
backtracking resolved: after the digit run and after the `\w{0,4}` run the
next pattern character is never a word character, and inside the optional
group every quantified class is disjoint from the character that follows it,
so the greedy maximal parse is the only candidate at every choice point
except the optional group itself, which is tried first and dropped on
failure. -/

def isWordChar (c : Char) : Bool := c.isAlphanum || c = '_'

def isSpaceChar (c : Char) : Bool := c = ' ' || c = '\t' || c = '\n' || c = '\r'

/-- Consume a literal character sequence, returning the rest. -/
def dropLiteral : List Char → List Char → Option (List Char)
  | [], rest => some rest
  | _, [] => none
  | p :: ps, c :: cs => if p = c then dropLiteral ps cs else none

/-- Consume `\s+\(\w*\)\s+`, returning the rest on success. -/
def consumeParenGroup (cs : List Char) : Option (List Char) :=
  let sp1 := cs.takeWhile isSpaceChar
  let r1 := cs.dropWhile isSpaceChar
  if sp1.isEmpty then none
  else
    match r1 with
    | '(' :: r2 =>
      let r3 := r2.dropWhile isWordChar
      (match r3 with
        | ')' :: r4 =>
          let sp2 := r4.takeWhile isSpaceChar
          if sp2.isEmpty then none else some (r4.dropWhile isSpaceChar)
        | _ => none)
    | _ => none

/-- `ActComparisonsService.extract_article_number`: the matched prefix (group
0 of the regex) or `None`. -/
def extractArticleNumber (text : String) : Option String :=
  let cs := text.toList
  match dropLiteral ("Art. ".toList) cs with
  | none => none
  | some r0 =>
    let digits := r0.takeWhile Char.isDigit
    let r1 := r0.dropWhile Char.isDigit
    if digits.isEmpty then none
    else
      let ws := r1.takeWhile isWordChar
      let r2 := r1.dropWhile isWordChar
      if 4 < ws.length then none
      else
        let finish : List Char → Option String := fun r =>
          match r with
          | '.' :: rest => some (String.mk (cs.take (cs.length - rest.length)))
          | _ => none
        match consumeParenGroup r2 with
        | some r3 =>
          (match finish r3 with
            | some m => some m
            | none => finish r2)
        | none => finish r2

/-- Domain model `ActChunk` (src/core/models/act.py): a `ChunkBase` whose
`reference_id` is the owning act id; its `text` is a plain string in every
code path the comparator touches. -/
structure ActChunk where
  id : Option Nat := none
  actId : Nat := 0
  text : String := ""
  embedding : Option Emb := none
deriving DecidableEq, Repr

/-- Domain model `ActChangeAnalysis` (src/core/models/act.py); the chunk-text
fields are populated only by the read-side joins. -/
structure ActChangeAnalysis where
  id : Option Nat := none
  changingActId : Nat := 0
  changedActId : Nat := 0
  changingChunkId : Option Nat := none
  changedChunkId : Option Nat := none
  changeType : String := ""
  changingChunkText : Option String := none
  changedChunkText : Option String := none
deriving DecidableEq, Repr

/-- Python-dict overwrite insert for the key → chunk maps. -/
def insertKeyMap (m : List (String × ActChunk)) (k : String) (v : ActChunk) :
    List (String × ActChunk) :=
  if m.any (fun p => p.1 = k) then
    m.map (fun p => if p.1 = k then (k, v) else p)
  else m ++ [(k, v)]

/-- The map-building loop of `_analyze_changes`: chunks without an extractable
article number are logged and skipped, duplicates overwrite. -/
def buildKeyMap (chunks : List ActChunk) : List (String × ActChunk) :=
  chunks.foldl (fun m c =>
    match extractArticleNumber c.text with
    | some k => insertKeyMap m k c
    | none => m) []

def lookupKeyMap (m : List (String × ActChunk)) (k : String) : Option ActChunk :=
  (m.find? (fun p => p.1 = k)).map (fun p => p.2)

/-- The cosine similarity `1 - distance.cosine(e1, e2)` is a float computation
on external vectors; it is abstracted as a rational-valued function of the
two chunks. -/
abbrev SimFn := ActChunk → ActChunk → ℚ

/-- `ActComparisonsService._analyze_changes`, instrumented with the article
key each produced record came from (the source produces exactly the second
components).  Set iteration order over `common/appended/removed` is realised
as first-insertion order of the underlying dict keys. -/
def analyzeChangesKeyed (sim : SimFn) (threshold : ℚ) (changingActId changedActId : Nat)
    (changingChunks changedChunks : List ActChunk) : List (String × ActChangeAnalysis) :=
  let changingMap := buildKeyMap changingChunks
  let changedMap := buildKeyMap changedChunks
  let changingArts := changingMap.map (fun p => p.1)
  let changedArts := changedMap.map (fun p => p.1)
  let commonArts := changingArts.filter (fun a => changedArts.contains a)
  let modified := commonArts.filterMap (fun art =>
    match lookupKeyMap changingMap art, lookupKeyMap changedMap art with
    | some cc, some dc =>
      if cc.text ≠ dc.text then
        if sim cc dc < threshold then
          some (art, { changingActId := changingActId, changedActId := changedActId,
                       changingChunkId := cc.id, changedChunkId := dc.id,
                       changeType := "modified" })
        else none
      else none
    | _, _ => none)
  let appendedArts := changingArts.filter (fun a => !(changedArts.contains a))
  let appended := appendedArts.filterMap (fun art =>
    (lookupKeyMap changingMap art).map (fun cc =>
      (art, ({ changingActId := changingActId, changedActId := changedActId,
               changingChunkId := cc.id, changedChunkId := none,
               changeType := "appended" } : ActChangeAnalysis))))
  let removedArts := changedArts.filter (fun a => !(changingArts.contains a))
  let removed := removedArts.filterMap (fun art =>
    (lookupKeyMap changedMap art).map (fun dc =>
      (art, ({ changingActId := changingActId, changedActId := changedActId,
               changingChunkId := none, changedChunkId := dc.id,
               changeType := "removed" } : ActChangeAnalysis))))
  modified ++ appended ++ removed

/-- `ActComparisonsService._analyze_changes`: the record list. -/
def analyzeChanges (sim : SimFn) (threshold : ℚ) (changingActId changedActId : Nat)
    (changingChunks changedChunks : List ActChunk) : List ActChangeAnalysis :=
  (analyzeChangesKeyed sim threshold changingActId changedActId changingChunks
    changedChunks).map (fun p => p.2)

/-- The persistence state visible to the comparison service: the act-chunk
store and the change-analysis store with the monotone id sequence of
`bulk_create`. -/
structure ComparisonsDb where
  actChunks : List ActChunk := []
  analyses : List ActChangeAnalysis := []
  nextId : Nat := 1
deriving DecidableEq, Repr

/-- `ActChangeAnalysisRepository.get_by_act_pair`. -/
def getByActPair (db : ComparisonsDb) (changingActId changedActId : Nat) :
    List ActChangeAnalysis :=
  db.analyses.filter (fun r =>
    r.changingActId = changingActId && r.changedActId = changedActId)

/-- `ActChunkRepository.get_for_act`. -/
def getForAct (db : ComparisonsDb) (actId : Nat) : List ActChunk :=
  db.actChunks.filter (fun c => c.actId = actId)

/-- `BaseRepository.bulk_create` for change analyses: ids generated by the
session flush, appended to the store. -/
def bulkCreateAnalyses (db : ComparisonsDb) (rs : List ActChangeAnalysis) :
    List ActChangeAnalysis × ComparisonsDb :=
  let withIds := rs.enum.map (fun p => { p.2 with id := some (db.nextId + p.1) })
  (withIds, { db with analyses := db.analyses ++ withIds,
                      nextId := db.nextId + rs.length })

/-- The enriched DTO (src/core/dtos/act_dto.py `ActChangeAnalysisDTO`), with
only the fields `_enrich_analysis_with_text` populates. -/
structure ActChangeAnalysisDTO where
  id : Option Nat := none
  changingActId : Nat := 0
  changedActId : Nat := 0
  changingChunkId : Option Nat := none
  changedChunkId : Option Nat := none
  changeType : String := ""
  changingChunkText : Option String := none
  changedChunkText : Option String := none
deriving DecidableEq, Repr

/-- `ActComparisonsService._enrich_analysis_with_text`: a read-side join of
the referenced chunk texts (`chunk_dict.get` yields `None` for an id that is
missing from the store). -/
def enrichWithText (db : ComparisonsDb) (rs : List ActChangeAnalysis) :
    List ActChangeAnalysisDTO :=
  rs.map (fun a =>
    { id := a.id, changingActId := a.changingActId, changedActId := a.changedActId,
      changingChunkId := a.changingChunkId, changedChunkId := a.changedChunkId,
      changeType := a.changeType,
      changingChunkText := a.changingChunkId.bind (fun i =>
        (db.actChunks.find? (fun c => c.id = some i)).map (fun c => c.text)),
      changedChunkText := a.changedChunkId.bind (fun i =>
        (db.actChunks.find? (fun c => c.id = some i)).map (fun c => c.text)) })

structure CompareOut where
  result : List ActChangeAnalysisDTO
  db : ComparisonsDb
  computedAlignment : Bool
deriving DecidableEq, Repr

/-- `ActComparisonsService.compare_acts`: cached records short-circuit the
alignment; otherwise the two fragment sets are analyzed, persisted in one
bulk write and returned enriched.  `computedAlignment` records whether
`_analyze_changes` ran. -/
def compareActs (sim : SimFn) (threshold : ℚ) (db : ComparisonsDb)
    (changingActId changedActId : Nat) : CompareOut :=
  let existing := getByActPair db changingActId changedActId
  if existing.isEmpty then
    let changingChunks := getForAct db changingActId
    let changedChunks := getForAct db changedActId
    let results := analyzeChanges sim threshold changingActId changedActId
      changingChunks changedChunks
    let saved := bulkCreateAnalyses db results
    ⟨enrichWithText saved.2 saved.1, saved.2, true⟩
  else ⟨enrichWithText db existing, db, false⟩

/-! ## Act change impact service (src/core/services/act_change_impact_service.py)

The impact LLM call and the nearest-neighbour document search are external;
they are abstracted as total functions, which suffices for the two cached
branches the claims are about. -/

structure DocChunk where
  id : Option Nat := none
  text : String := ""
  embedding : Option Emb := none
deriving DecidableEq, Repr

/-- Domain model `ActChangeImpactAnalysis` (src/core/models/act.py). -/
structure ActChangeImpactAnalysis where
  id : Option Nat := none
  changingActId : Nat := 0
  changedActId : Nat := 0
  changeAnalysisId : Option Nat := none
  docChunkId : Option Nat := none
  relevancy : ℚ := 0
  justification : String := ""
deriving DecidableEq, Repr

/-- The prompt variables of one impact assessment request. -/
structure ImpactInput where
  changeType : String
  changedText : Option String
  changingText : Option String
  docText : String
deriving DecidableEq, Repr

/-- `ImpactAssessmentResponse` (src/infrastructure/processing/llm/llm_response_models.py). -/
structure ImpactResponse where
  relevancy : ℚ
  justification : String
deriving DecidableEq, Repr

structure ImpactDb where
  actChunks : List ActChunk := []
  docChunks : List DocChunk := []
  analyses : List ActChangeAnalysis := []
  impacts : List ActChangeImpactAnalysis := []
  nextId : Nat := 1
deriving DecidableEq, Repr

/-- `ActChangeAnalysisRepository.get_by_act_pair_with_texts`: the pair filter
plus the outer-joined fragment texts. -/
def getByActPairWithTexts (db : ImpactDb) (changingActId changedActId : Nat) :
    List ActChangeAnalysis :=
  (db.analyses.filter (fun r =>
      r.changingActId = changingActId && r.changedActId = changedActId)).map
    (fun r =>
      { r with
        changingChunkText := r.changingChunkId.bind (fun i =>
          (db.actChunks.find? (fun c => c.id = some i)).map (fun c => c.text)),
        changedChunkText := r.changedChunkId.bind (fun i =>
          (db.actChunks.find? (fun c => c.id = some i)).map (fun c => c.text)) })

/-- `ActChangeImpactAnalysisRepository.get_by_act_pair`. -/
def impactsByPair (db : ImpactDb) (changingActId changedActId : Nat) :
    List ActChangeImpactAnalysis :=
  db.impacts.filter (fun r =>
    r.changingActId = changingActId && r.changedActId = changedActId)

def bulkCreateImpacts (db : ImpactDb) (rs : List ActChangeImpactAnalysis) :
    List ActChangeImpactAnalysis × ImpactDb :=
  let withIds := rs.enum.map (fun p => { p.2 with id := some (db.nextId + p.1) })
  (withIds, { db with impacts := db.impacts ++ withIds,
                      nextId := db.nextId + rs.length })

/-- `analysis.changing_chunk_id or analysis.changed_chunk_id`: Python `or`
falls through on `None` and on the falsy integer `0`. -/
def pyOrIntOpt (x y : Option Nat) : Option Nat :=
  match x with
  | none => y
  | some 0 => y
  | some n => some n

structure ActChangeImpactAnalysisDTO where
  id : Option Nat := none
  changeAnalysisId : Option Nat := none
  docChunkId : Option Nat := none
  relevancy : ℚ := 0
  justification : String := ""
  docChunkText : Option String := none
deriving DecidableEq, Repr

/-- `ActChangeAnalysisDTO` as built by `_enrich_analysis_with_impacts`, with
its nested impact list. -/
structure EnrichedChangeDTO where
  id : Option Nat := none
  changingActId : Nat := 0
  changedActId : Nat := 0
  changingChunkId : Option Nat := none
  changedChunkId : Option Nat := none
  changeType : String := ""
  changingChunkText : Option String := none
  changedChunkText : Option String := none
  impacts : List ActChangeImpactAnalysisDTO := []
deriving DecidableEq, Repr

/-- `ActChangeImpactService._enrich_analysis_with_impacts`: impacts grouped by
`change_analysis_id` (grouping a list by key preserves list order within each
key, so the group of an analysis is a filter), document texts joined in. -/
def enrichWithImpacts (db : ImpactDb) (analyses : List ActChangeAnalysis)
    (impacts : List ActChangeImpactAnalysis) : List EnrichedChangeDTO :=
  analyses.map (fun a =>
    let forA := impacts.filter (fun im => im.changeAnalysisId = a.id)
    { id := a.id, changingActId := a.changingActId, changedActId := a.changedActId,
      changingChunkId := a.changingChunkId, changedChunkId := a.changedChunkId,
      changeType := a.changeType,
      changingChunkText := a.changingChunkText,
      changedChunkText := a.changedChunkText,
      impacts := forA.map (fun im =>
        { id := im.id, changeAnalysisId := im.changeAnalysisId,
          docChunkId := im.docChunkId, relevancy := im.relevancy,
          justification := im.justification,
          docChunkText := im.docChunkId.bind (fun i =>
            (db.docChunks.find? (fun c => c.id = some i)).map (fun c => c.text)) }) })

structure ImpactOut where
  result : List EnrichedChangeDTO
  db : ImpactDb
  llmCalls : Nat
deriving DecidableEq, Repr

/-- `ActChangeImpactService.analyze_impact`.  `topN` abstracts
`doc_chunk_repo.get_top_n_similar`, `llm` abstracts the per-item
`llm_handler.invoke`; `llmCalls` counts the LLM requests dispatched through
the batch processor. -/
def analyzeImpact (topN : Option Emb → Nat → List DocChunk)
    (llm : ImpactInput → ImpactResponse) (db : ImpactDb)
    (changingActId changedActId : Nat) : ImpactOut :=
  let analyses := getByActPairWithTexts db changingActId changedActId
  if analyses.isEmpty then ⟨[], db, 0⟩
  else
    let existingImpacts := impactsByPair db changingActId changedActId
    if existingImpacts.isEmpty then
      let itemsWithIds := analyses.foldl (fun acc analysis =>
        if ["modified", "appended", "removed"].contains analysis.changeType then
          let chunkId := pyOrIntOpt analysis.changingChunkId analysis.changedChunkId
          let similarDocChunks :=
            match chunkId.bind (fun cid =>
                db.actChunks.find? (fun c => c.id = some cid)) with
            | some chunk => topN chunk.embedding 5
            | none => []
          acc ++ similarDocChunks.map (fun docChunk =>
            ((analysis.id, docChunk.id),
             ({ changeType := analysis.changeType,
                changedText := analysis.changedChunkText,
                changingText := analysis.changingChunkText,
                docText := docChunk.text } : ImpactInput)))
        else acc) []
      let results := itemsWithIds.map (fun p => (p.1, llm p.2))
      let impactAnalyses := results.map (fun p =>
        ({ changingActId := changingActId, changedActId := changedActId,
           changeAnalysisId := p.1.1, docChunkId := p.1.2,
           relevancy := p.2.relevancy,
           justification := p.2.justification } : ActChangeImpactAnalysis))
      let saved :=
        if impactAnalyses.isEmpty then ([], db)
        else bulkCreateImpacts db impactAnalyses
      ⟨enrichWithImpacts saved.2 analyses impactAnalyses, saved.2, itemsWithIds.length⟩
    else ⟨enrichWithImpacts db analyses existingImpacts, db, 0⟩

/-! ## Concrete inputs used by the evaluation theorems and witnesses -/

/-- A process function for a 5-item batch where exactly item 3 raises. -/
def failsOnThree : Nat → Except String Nat :=
  fun i => if i = 3 then .error "boom" else .ok (i * 10)

/-- The 5-item batch `(identifier, item)` list of the batch-isolation example. -/
def fiveItems : List (Nat × Nat) := [(1, 1), (2, 2), (3, 3), (4, 4), (5, 5)]

/-- Five embedded chunks (the degenerate-split example has 5 items, k = 8). -/
def fiveChunks : List ChunkBase :=
  [{ id := some 0, text := some "t0", embedding := some [0] },
   { id := some 1, text := some "t1", embedding := some [1] },
   { id := some 2, text := some "t2", embedding := some [2] },
   { id := some 3, text := some "t3", embedding := some [3] },
   { id := some 4, text := some "t4", embedding := some [4] }]

/-- A labelling the external k-means may legitimately return on five points
with five centroids: each point its own cluster, cluster indices permuted. -/
def permLabels : LabelsFn := fun _ _ => [1, 0, 2, 3, 4]

/-- A labelling for two points in two clusters. -/
def twoLabels : LabelsFn := fun _ _ => [0, 1]

/-- A labelling for one point in one cluster. -/
def oneLabel : LabelsFn := fun _ _ => [0]

/-- A deterministic LLM used in the evaluation theorems. -/
def llmTag : LlmFn := fun t => { summary := some ("S:" ++ t), flag := some true }

/-- A chunk whose text is empty (truthiness drops it from the combined text). -/
def emptyTextChunk : ChunkBase := { id := some 1, text := some "", embedding := some [0] }

def helloChunk : ChunkBase := { id := some 2, text := some "hello", embedding := some [1] }

def chunkA : ChunkBase := { id := some 1, text := some "aaa", embedding := some [0] }

def chunkB : ChunkBase := { id := some 2, text := some "bbb", embedding := some [1] }

/-- Changing-act fragments of the comparator example. -/
def exChangingChunks : List ActChunk :=
  [{ id := some 1, actId := 10, text := "Art. 1. Text A" },
   { id := some 2, actId := 10, text := "Art. 2. Text B" }]

/-- Changed-act fragments of the comparator example. -/
def exChangedChunks : List ActChunk :=
  [{ id := some 3, actId := 20, text := "Art. 1. Text A" },
   { id := some 4, actId := 20, text := "Art. 3. Text C" }]

/-- A fresh store holding only the example fragments of both acts. -/
def exFreshDb : ComparisonsDb :=
  { actChunks := exChangingChunks ++ exChangedChunks, analyses := [], nextId := 1 }

/-- A similarity function (irrelevant to the example: the only common article
has byte-identical text, so no similarity is ever consulted). -/
def simOne : SimFn := fun _ _ => 1

/-- The default threshold `0.985`. -/
def defaultThreshold : ℚ := 985 / 1000

/-- Two fragments of one act mapping to the same article key. -/
def dupEarlier : ActChunk := { id := some 21, actId := 30, text := "Art. 7. old body" }

def dupLater : ActChunk := { id := some 22, actId := 30, text := "Art. 7. new body" }

/-- A store with one persisted change-analysis record for the pair (10, 20),
used to witness comparator idempotence. -/
def exAnalyzedDb : ComparisonsDb :=
  { actChunks := exChangingChunks ++ exChangedChunks,
    analyses := [{ id := some 1, changingActId := 10, changedActId := 20,
                   changingChunkId := some 2, changedChunkId := none,
                   changeType := "appended" }],
    nextId := 2 }

/-- An impact store for the pair (10, 20) with one change analysis and no
impact records. -/
def exImpactDbNoChanges : ImpactDb :=
  { actChunks := [], docChunks := [], analyses := [], impacts := [], nextId := 1 }

/-- An impact store with one change analysis and one persisted impact record
for the pair (10, 20). -/
def exImpactDbCached : ImpactDb :=
  { actChunks := [{ id := some 2, actId := 10, text := "Art. 2. Text B", embedding := some [5] }],
    docChunks := [{ id := some 7, text := "doc fragment", embedding := some [6] }],
    analyses := [{ id := some 1, changingActId := 10, changedActId := 20,
                   changingChunkId := some 2, changedChunkId := none,
                   changeType := "appended" }],
    impacts := [{ id := some 1, changingActId := 10, changedActId := 20,
                  changeAnalysisId := some 1, docChunkId := some 7,
                  relevancy := 1 / 2, justification := "relevant" }],
    nextId := 2 }

/-- A trivial top-n search and impact LLM for witnesses. -/
def topNNone : Option Emb → Nat → List DocChunk := fun _ _ => []

def llmImpactConst : ImpactInput → ImpactResponse :=
  fun _ => { relevancy := 1, justification := "j" }

end Padwa

namespace Padwa

/-! ## Theorems -/

/-- Claim C1: the spec says a 5-item batch where exactly item 3 raises yields
4 successful results plus one per-key error indicator, never raising out of
the whole batch.  The code does the opposite: `process_batch` calls
`future.result()`, which re-raises the task exception, so the batch call
raises, `bulk_invoke` catches it and returns `None` for the whole batch; the
per-key error-indicator branch is unreachable.  Evaluated at the failing
input. -/
theorem bulkInvoke_item_failure_aborts_batch :
    bulkInvoke failsOnThree fiveItems = none ∧
    processBatch failsOnThree fiveItems = .error "boom" ∧
    bulkInvoke failsOnThree [(1, 1), (2, 2), (4, 4), (5, 5)] =
      some [(1, some 10), (2, some 20), (4, some 40), (5, some 50)] := by
  refine ⟨rfl, rfl, rfl⟩

/-- Claim C4: the spec says that for 5 items and k = 8 no centroid clustering
runs and the items are split into 5 contiguous singleton groups in input
order.  In the code `self.num_clusters = min(num_clusters, len(chunks))` is
assigned before the `len(chunks) < self.num_clusters` test, so that test is
never true and k-means always runs (here with `n_clusters = 5`); the grouping
follows the k-means labels, which need not be the contiguous in-order split
(evaluated under a legitimate permuted labelling). -/
theorem cluster_five_items_runs_kmeans_not_split :
    cluster permLabels fiveChunks 8 =
      [{ chunks := [fiveChunks.get ⟨1, by decide⟩] },
       { chunks := [fiveChunks.get ⟨0, by decide⟩] },
       { chunks := [fiveChunks.get ⟨2, by decide⟩] },
       { chunks := [fiveChunks.get ⟨3, by decide⟩] },
       { chunks := [fiveChunks.get ⟨4, by decide⟩] }] ∧
    (splitIntoEqualChunks fiveChunks 8).map (fun l => ({ chunks := l } : ChunkClusterBase)) =
      [{ chunks := [fiveChunks.get ⟨0, by decide⟩] },
       { chunks := [fiveChunks.get ⟨1, by decide⟩] },
       { chunks := [fiveChunks.get ⟨2, by decide⟩] },
       { chunks := [fiveChunks.get ⟨3, by decide⟩] },
       { chunks := [fiveChunks.get ⟨4, by decide⟩] }] ∧
    cluster permLabels fiveChunks 8 ≠
      (splitIntoEqualChunks fiveChunks 8).map (fun l => ({ chunks := l } : ChunkClusterBase)) := by
  refine ⟨by decide, by decide, by decide⟩

/-- Claim C3: the spec says groups with empty concatenated text are dropped
from the returned list and every kept node carries the summary of its own
group.  The code returns the full clusterer output (`return clusters`), and
applies each batched response to `valid_clusters[int(idx)]` although `idx`
indexes the full list, so as soon as one group is dropped from the batch the
later responses are misattached or lost.  Evaluated at a 2-group input whose
first group has empty text: both groups are returned and the non-empty group
never receives its summary. -/
theorem createBaseClusters_keeps_empty_group_and_drops_summary :
    createBaseClusters twoLabels llmTag [emptyTextChunk, helloChunk] 7 8 =
      [{ referenceId := some 7, level := 0, chunks := [emptyTextChunk] },
       { referenceId := some 7, level := 0, chunks := [helloChunk] }] ∧
    (createBaseClusters twoLabels llmTag [emptyTextChunk, helloChunk] 7 8).length = 2 ∧
    (createBaseClusters twoLabels llmTag [emptyTextChunk, helloChunk] 7 8).map
      (fun c => c.text) = [none, none] := by
  refine ⟨by decide, by decide, by decide⟩

/-- Claim C5 (counterexample): on the spec example the claim expects one
`removed` record for the fragment keyed "Art. 2." and one `appended` record
for "Art. 3.".  The code computes `appended = changing - changed` and
`removed = changed - changing`, so the fresh comparison yields zero `removed`
records referencing the Art. 2 fragment (id 2) and zero `appended` records
referencing the Art. 3 fragment (id 4), refuting the claim as stated. -/
theorem compareActs_example_labels_swapped :
    ((compareActs simOne defaultThreshold exFreshDb 10 20).result.filter
      (fun d => d.changeType = "removed" &&
        (d.changingChunkId = some 2 || d.changedChunkId = some 2))).length = 0 ∧
    ((compareActs simOne defaultThreshold exFreshDb 10 20).result.filter
      (fun d => d.changeType = "appended" &&
        (d.changingChunkId = some 4 || d.changedChunkId = some 4))).length = 0 := by
  refine ⟨by decide, by decide⟩

/-- Claim C5 (amended): on the example the fresh comparison produces exactly
one `appended` record for the fragment keyed "Art. 2." (the key only in the
changing act), exactly one `removed` record for "Art. 3." (the key only in
the changed act), and no record for "Art. 1." (identical text). -/
theorem compareActs_example_appended_art2_removed_art3 :
    (compareActs simOne defaultThreshold exFreshDb 10 20).result.map
      (fun d => (d.changeType, d.changingChunkId, d.changedChunkId)) =
      [("appended", some 2, none), ("removed", none, some 4)] := by
  decide

/-- Claim C2 (counterexample): with two embedded fragments, driving
`summarize` to completion while feeding back each yielded level unmodified
does not end with one final node.  The base level yields two cluster nodes
whose `embedding` is `None`; re-clustering them therefore returns the empty
list, the second yielded level is empty, and the generator returns `None`. -/
theorem summarize_two_fragments_unmodified_feedback_returns_none :
    (summarize twoLabels llmTag [chunkA, chunkB] 7 8 5).2 = some none ∧
    (summarize twoLabels llmTag [chunkA, chunkB] 7 8 5).1.map List.length = [2, 0] := by
  refine ⟨by decide, by decide⟩

/-! ### Retry loop lemmas (claim C6) -/

/-- When every attempt parse-fails, the loop runs its remaining `fuel`
attempts, sleeping between attempts, and re-raises the parse error of the
last attempt (`max_retries - 1`, 0-based). -/
theorem invokeLoop_all_parse (attempt : Nat → AttemptOutcome) (maxR delay : Nat)
    (e : Nat → Nat) (he : ∀ i, attempt i = .parseFailure (e i)) :
    ∀ fuel retries sleeps, fuel + retries = maxR → 1 ≤ fuel →
      invokeLoop attempt maxR delay fuel retries sleeps =
        ⟨.raisedParse (e (maxR - 1)), maxR,
         sleeps.reverse ++ List.replicate (fuel - 1) delay⟩ := by
  intro fuel
  induction fuel with
  | zero => intro retries sleeps _ h1; omega
  | succ f ih =>
    intro retries sleeps hsum _
    rw [invokeLoop, he retries]
    by_cases hle : maxR ≤ retries + 1
    · have hr : retries = maxR - 1 := by omega
      have hf : f = 0 := by omega
      have hm : maxR - 1 + 1 = maxR := by omega
      simp [hle, hr, hf, hm]
    · have hf1 : 1 ≤ f := by omega
      simp only [if_neg hle]
      rw [ih (retries + 1) (delay :: sleeps) (by omega) hf1]
      have hrep : (f + 1) - 1 = (f - 1) + 1 := by omega
      simp [hrep, List.replicate_succ]

/-- When the first `k` attempts parse-fail and attempt `k` raises any other
exception, the loop raises it at once after `k + 1` attempts. -/
theorem invokeLoop_other_at (attempt : Nat → AttemptOutcome) (maxR delay : Nat)
    (k ex : Nat) (hk : k < maxR)
    (hpre : ∀ i, i < k → ∃ er, attempt i = .parseFailure er)
    (hat : attempt k = .otherFailure ex) :
    ∀ fuel retries sleeps, fuel + retries = maxR → retries ≤ k →
      invokeLoop attempt maxR delay fuel retries sleeps =
        ⟨.raisedOther ex, k + 1,
         sleeps.reverse ++ List.replicate (k - retries) delay⟩ := by
  intro fuel
  induction fuel with
  | zero => intro retries sleeps hsum hrk; omega
  | succ f ih =>
    intro retries sleeps hsum hrk
    rw [invokeLoop]
    rcases Nat.eq_or_lt_of_le hrk with hEq | hLt
    · rw [hEq, hat]
      simp [hEq]
    · obtain ⟨er, her⟩ := hpre retries hLt
      rw [her]
      have hle : ¬ maxR ≤ retries + 1 := by omega
      simp only [if_neg hle]
      rw [ih (retries + 1) (delay :: sleeps) (by omega) (by omega)]
      have hrep : k - retries = (k - (retries + 1)) + 1 := by omega
      simp [hrep, List.replicate_succ]

/-- Claim C6: `LLMHandler.invoke` retries only on structured-output parse
failures with a fixed sleep between attempts: a call whose attempts all
parse-fail is attempted exactly `max_retries` times and then the last parse
error is raised, while any other exception propagates immediately at its
first occurrence, after `k + 1` attempts when the first `k` attempts
parse-failed, with no further retry. -/
theorem invoke_retry_policy (attempt : Nat → AttemptOutcome)
    (maxRetries delaySeconds : Nat) :
    (∀ (e : Nat → Nat), (∀ i, attempt i = .parseFailure (e i)) → 1 ≤ maxRetries →
      invoke attempt maxRetries delaySeconds =
        ⟨.raisedParse (e (maxRetries - 1)), maxRetries,
         List.replicate (maxRetries - 1) delaySeconds⟩)
  ∧ (∀ k ex, k < maxRetries →
      (∀ i, i < k → ∃ er, attempt i = .parseFailure er) →
      attempt k = .otherFailure ex →
      invoke attempt maxRetries delaySeconds =
        ⟨.raisedOther ex, k + 1, List.replicate k delaySeconds⟩) := by
  constructor
  · intro e he h1
    have h := invokeLoop_all_parse attempt maxRetries delaySeconds e he maxRetries 0 []
      (by omega) h1
    simpa [invoke] using h
  · intro k ex hk hpre hat
    have h := invokeLoop_other_at attempt maxRetries delaySeconds k ex hk hpre hat
      maxRetries 0 [] (by omega) (by omega)
    simpa [invoke] using h

/-- Witness for C6 at concrete inputs: an always-parse-failing call with the
default `max_retries = 3` makes exactly 3 attempts and raises the last parse
error with two 5-second sleeps, and a call whose second attempt raises a
non-parse exception stops after 2 attempts. -/
theorem invoke_retry_policy_witness :
    invoke (fun i => .parseFailure i) 3 5 = ⟨.raisedParse 2, 3, [5, 5]⟩ ∧
    invoke (fun i => if i = 1 then .otherFailure 99 else .parseFailure i) 3 5 =
      ⟨.raisedOther 99, 2, [5]⟩ := by
  constructor
  · exact (invoke_retry_policy (fun i => .parseFailure i) 3 5).1
      (fun i => i) (fun _ => rfl) (by decide)
  · exact (invoke_retry_policy (fun i => if i = 1 then .otherFailure 99 else .parseFailure i) 3 5).2
      1 99 (by decide) (fun i hi => ⟨i, by have h0 : i = 0 := Nat.lt_one_iff.mp hi; subst h0; rfl⟩)
      (by decide)

/-! ### Comparator and impact idempotence (claims C7, C8) -/

/-- The enrichment join preserves record identity and change type. -/
theorem enrichWithText_id_type (db : ComparisonsDb) (rs : List ActChangeAnalysis) :
    (enrichWithText db rs).map (fun d => (d.id, d.changeType)) =
      rs.map (fun r => (r.id, r.changeType)) := by
  simp [enrichWithText, List.map_map]

/-- Claim C7: `compare_acts` on a pair whose change-analysis records are
already persisted returns exactly the previously persisted records (same ids,
same change types, enriched read-side), does not run the alignment again, and
leaves the store unchanged (so no duplicates are created). -/
theorem compareActs_idempotent (sim : SimFn) (threshold : ℚ) (db : ComparisonsDb)
    (changingActId changedActId : Nat)
    (h : getByActPair db changingActId changedActId ≠ []) :
    (compareActs sim threshold db changingActId changedActId).db = db ∧
    (compareActs sim threshold db changingActId changedActId).computedAlignment = false ∧
    (compareActs sim threshold db changingActId changedActId).result =
      enrichWithText db (getByActPair db changingActId changedActId) ∧
    (compareActs sim threshold db changingActId changedActId).result.map
        (fun d => (d.id, d.changeType)) =
      (getByActPair db changingActId changedActId).map (fun r => (r.id, r.changeType)) := by
  have hne : ¬ ((getByActPair db changingActId changedActId).isEmpty = true) := by
    simpa [List.isEmpty_iff] using h
  refine ⟨?_, ?_, ?_, ?_⟩ <;>
    simp [compareActs, hne, enrichWithText_id_type]

/-- Witness for C7: on a store already holding one analysis for the pair
(10, 20), the second comparison returns that record with its id and change
type, computes nothing and stores nothing. -/
theorem compareActs_idempotent_witness :
    getByActPair exAnalyzedDb 10 20 ≠ [] ∧
    (compareActs simOne defaultThreshold exAnalyzedDb 10 20).db = exAnalyzedDb ∧
    (compareActs simOne defaultThreshold exAnalyzedDb 10 20).computedAlignment = false ∧
    (compareActs simOne defaultThreshold exAnalyzedDb 10 20).result =
      enrichWithText exAnalyzedDb (getByActPair exAnalyzedDb 10 20) ∧
    (compareActs simOne defaultThreshold exAnalyzedDb 10 20).result.map
        (fun d => (d.id, d.changeType)) =
      (getByActPair exAnalyzedDb 10 20).map (fun r => (r.id, r.changeType)) := by
  have h : getByActPair exAnalyzedDb 10 20 ≠ [] := by decide
  exact ⟨h, compareActs_idempotent simOne defaultThreshold exAnalyzedDb 10 20 h⟩

/-- Claim C8: `analyze_impact` returns the empty list when no change records
exist for the pair, touching nothing (in particular the service holds no
reference to the comparator, so no comparison can be triggered), and when
impact records already exist it returns them enriched with no LLM call and
no new record. -/
theorem analyzeImpact_idempotent (topN : Option Emb → Nat → List DocChunk)
    (llm : ImpactInput → ImpactResponse) (db : ImpactDb)
    (changingActId changedActId : Nat) :
    (getByActPairWithTexts db changingActId changedActId = [] →
       analyzeImpact topN llm db changingActId changedActId = ⟨[], db, 0⟩)
  ∧ (getByActPairWithTexts db changingActId changedActId ≠ [] →
     impactsByPair db changingActId changedActId ≠ [] →
       analyzeImpact topN llm db changingActId changedActId =
         ⟨enrichWithImpacts db (getByActPairWithTexts db changingActId changedActId)
            (impactsByPair db changingActId changedActId), db, 0⟩) := by
  constructor
  · intro h
    simp [analyzeImpact, h]
  · intro h1 h2
    have hne1 : ¬ ((getByActPairWithTexts db changingActId changedActId).isEmpty = true) := by
      simpa [List.isEmpty_iff] using h1
    have hne2 : ¬ ((impactsByPair db changingActId changedActId).isEmpty = true) := by
      simpa [List.isEmpty_iff] using h2
    simp [analyzeImpact, hne1, hne2]

/-- Witness for C8: a pair with no change records yields the empty result
with zero LLM calls and an untouched store, and a pair with a cached impact
record yields the enriched cached record with zero LLM calls. -/
theorem analyzeImpact_idempotent_witness :
    analyzeImpact topNNone llmImpactConst exImpactDbNoChanges 10 20 =
      ⟨[], exImpactDbNoChanges, 0⟩ ∧
    analyzeImpact topNNone llmImpactConst exImpactDbCached 10 20 =
      ⟨enrichWithImpacts exImpactDbCached (getByActPairWithTexts exImpactDbCached 10 20)
         (impactsByPair exImpactDbCached 10 20), exImpactDbCached, 0⟩ := by
  constructor
  · exact (analyzeImpact_idempotent topNNone llmImpactConst exImpactDbNoChanges 10 20).1
      (by decide)
  · exact (analyzeImpact_idempotent topNNone llmImpactConst exImpactDbCached 10 20).2
      (by decide) (by decide)

/-! ### Clusterer partition invariant (claim C9) -/

theorem length_modifyNth {A : Type} (f : A → A) : ∀ (n : Nat) (l : List A),
    (modifyNth f n l).length = l.length
  | n, [] => by cases n <;> rfl
  | 0, _ :: _ => rfl
  | n + 1, _ :: as => by simp [modifyNth, length_modifyNth f n as]

theorem flatten_replicate_nil {A : Type} : ∀ n, (List.replicate n ([] : List A)).flatten = []
  | 0 => rfl
  | n + 1 => by simp [List.replicate_succ, flatten_replicate_nil n]

/-- Appending one element inside the `n`-th bucket permutes the flattened
contents by one insertion. -/
theorem flatten_modifyNth_perm {A : Type} (c : A) : ∀ (acc : List (List A)) (n : Nat),
    n < acc.length →
    (modifyNth (fun l => l ++ [c]) n acc).flatten.Perm (c :: acc.flatten)
  | [], n, h => absurd h (by simp)
  | a :: as, 0, _ => by
    simp only [modifyNth, List.flatten_cons]
    rw [List.append_assoc, List.singleton_append]
    exact List.perm_middle
  | a :: as, n + 1, h => by
    simp only [modifyNth, List.flatten_cons]
    have ih := flatten_modifyNth_perm c as n (by simpa using h)
    exact (ih.append_left a).trans List.perm_middle

theorem buildClusterLists_length : ∀ (pairs : List (ChunkBase × Nat))
    (acc : List (List ChunkBase)),
    (buildClusterLists pairs acc).length = acc.length
  | [], _ => rfl
  | (c, lbl) :: rest, acc => by
    simp [buildClusterLists, buildClusterLists_length rest, length_modifyNth]

/-- The label-assignment loop distributes exactly the listed chunks over the
buckets. -/
theorem buildClusterLists_flatten_perm : ∀ (pairs : List (ChunkBase × Nat))
    (acc : List (List ChunkBase)),
    (∀ p ∈ pairs, p.2 < acc.length) →
    (buildClusterLists pairs acc).flatten.Perm (pairs.map Prod.fst ++ acc.flatten)
  | [], acc, _ => by simp [buildClusterLists]
  | (c, lbl) :: rest, acc, h => by
    have hl : lbl < acc.length := h (c, lbl) (by simp)
    have hrest : ∀ p ∈ rest, p.2 < (modifyNth (fun l => l ++ [c]) lbl acc).length := by
      intro p hp
      rw [length_modifyNth]
      exact h p (by simp [hp])
    have ih := buildClusterLists_flatten_perm rest (modifyNth (fun l => l ++ [c]) lbl acc) hrest
    have hm := flatten_modifyNth_perm c acc lbl hl
    show (buildClusterLists rest (modifyNth (fun l => l ++ [c]) lbl acc)).flatten.Perm _
    simp only [List.map_cons, List.cons_append]
    exact ih.trans ((hm.append_left (rest.map Prod.fst)).trans List.perm_middle)

/-- With a non-empty fully-embedded input the degenerate branch
`len(chunks) < min(k, len(chunks))` is unsatisfiable and `cluster` reduces to
the label-assignment result. -/
theorem cluster_eq_labelled (labelsFn : LabelsFn) (chunks : List ChunkBase)
    (numClusters : Nat) (hne : chunks ≠ [])
    (hemb : ∀ c ∈ chunks, c.embedding.isSome) :
    cluster labelsFn chunks numClusters =
      (buildClusterLists
        (chunks.zip (labelsFn (chunks.map (fun c => c.embedding.getD []))
          (min numClusters chunks.length)))
        (List.replicate (min numClusters chunks.length) [])).map
        (fun l => { chunks := l }) := by
  have h1 : chunks.isEmpty = false := by
    cases chunks with
    | nil => exact absurd rfl hne
    | cons a as => rfl
  have h2 : chunks.any (fun c => c.embedding.isNone) = false := by
    rw [List.any_eq_false]
    intro c hc
    have hs := hemb c hc
    cases hcE : c.embedding with
    | none => rw [hcE] at hs; simp at hs
    | some v => simp [hcE]
  have h3 : ¬ (chunks.length < min numClusters chunks.length) :=
    Nat.not_lt.mpr (Nat.min_le_right _ _)
  simp [cluster, h1, h2, h3]

/-- Claim C9: for every non-empty chunk list with all embeddings present (and
the external k-means returning one in-range label per row, as sklearn
guarantees), the clusters returned by `cluster` partition the input: the
concatenation of all member lists is a permutation of the input, and the
member counts sum to the input length. -/
theorem cluster_is_partition (labelsFn : LabelsFn) (chunks : List ChunkBase)
    (numClusters : Nat) (hne : chunks ≠ [])
    (hemb : ∀ c ∈ chunks, c.embedding.isSome)
    (hlen : (labelsFn (chunks.map (fun c => c.embedding.getD []))
        (min numClusters chunks.length)).length = chunks.length)
    (hvalid : ∀ l ∈ labelsFn (chunks.map (fun c => c.embedding.getD []))
        (min numClusters chunks.length), l < min numClusters chunks.length) :
    ((cluster labelsFn chunks numClusters).map (fun c => c.chunks)).flatten.Perm chunks ∧
    (((cluster labelsFn chunks numClusters).map (fun c => c.chunks)).map
       List.length).sum = chunks.length := by
  have hcl := cluster_eq_labelled labelsFn chunks numClusters hne hemb
  set labels := labelsFn (chunks.map (fun c => c.embedding.getD []))
    (min numClusters chunks.length) with hlabels
  set K := min numClusters chunks.length with hK
  have hmem : ∀ p ∈ chunks.zip labels, p.2 < (List.replicate K ([] : List ChunkBase)).length := by
    intro p hp
    rw [List.length_replicate]
    exact hvalid p.2 (List.of_mem_zip hp).2
  have hperm := buildClusterLists_flatten_perm (chunks.zip labels)
    (List.replicate K []) hmem
  have hfst : (chunks.zip labels).map Prod.fst = chunks :=
    List.map_fst_zip chunks labels (le_of_eq hlen.symm)
  have hproj : ((cluster labelsFn chunks numClusters).map (fun c => c.chunks)) =
      buildClusterLists (chunks.zip labels) (List.replicate K []) := by
    rw [hcl, List.map_map]
    exact List.map_id _
  have hflat : ((cluster labelsFn chunks numClusters).map (fun c => c.chunks)).flatten.Perm chunks := by
    rw [hproj]
    have hp2 := hperm
    rw [flatten_replicate_nil, List.append_nil, hfst] at hp2
    exact hp2
  refine ⟨hflat, ?_⟩
  rw [← List.length_flatten]
  exact hflat.length_eq

/-- Witness for C9 at a concrete two-chunk input with an all-zero labelling
into two buckets: the first bucket gets both chunks, the second is empty, and
the member lists still partition the input. -/
theorem cluster_is_partition_witness :
    (((cluster (fun _ _ => [0, 0]) [chunkA, chunkB] 8).map (fun c => c.chunks)).flatten.Perm
      [chunkA, chunkB]) ∧
    ((((cluster (fun _ _ => [0, 0]) [chunkA, chunkB] 8).map (fun c => c.chunks)).map
       List.length).sum = 2) := by
  exact cluster_is_partition (fun _ _ => [0, 0]) [chunkA, chunkB] 8
    (by decide) (by decide) (by decide) (by decide)

/-! ### Duplicate article keys in the comparator (claim C10) -/

theorem find_map_replace (k : String) (v : ActChunk) :
    ∀ (m : List (String × ActChunk)), m.any (fun q => q.1 = k) = true →
      (m.map (fun p => if p.1 = k then (k, v) else p)).find? (fun q => q.1 = k) =
        some (k, v)
  | [], h => by simp at h
  | p :: rest, h => by
    by_cases hp : p.1 = k
    · simp [hp]
    · have hrest : rest.any (fun q => q.1 = k) = true := by
        simpa [hp] using h
      simpa [hp] using find_map_replace k v rest hrest

theorem find_append_of_any_false {B : Type} (pred : B → Bool) :
    ∀ (m l2 : List B), m.any pred = false →
      (m ++ l2).find? pred = l2.find? pred
  | [], _, _ => by simp
  | p :: rest, l2, h => by
    have hp : pred p = false := by
      by_contra hcon
      simp [Bool.not_eq_false] at hcon
      simp [hcon] at h
    have hrest : rest.any pred = false := by
      simpa [hp] using h
    simpa [hp] using find_append_of_any_false pred rest l2 hrest

/-- Dict assignment `map[k] = v`: the subsequent lookup of `k` returns `v`,
whatever was stored before. -/
theorem lookup_insertKeyMap_self (m : List (String × ActChunk)) (k : String)
    (v : ActChunk) : lookupKeyMap (insertKeyMap m k v) k = some v := by
  unfold insertKeyMap lookupKeyMap
  by_cases h : m.any (fun q => q.1 = k) = true
  · simp only [h, if_true]
    rw [find_map_replace k v m h]
    rfl
  · have hfalse : m.any (fun q => q.1 = k) = false := Bool.eq_false_iff.mpr h
    simp only [hfalse, Bool.false_eq_true, if_false]
    rw [find_append_of_any_false _ m _ hfalse]
    simp

/-- Building the key map over a list ending in a keyed fragment is one
overwrite-insert into the map of the earlier fragments. -/
theorem buildKeyMap_append_keyed (chunks : List ActChunk) (c : ActChunk)
    (k : String) (hc : extractArticleNumber c.text = some k) :
    buildKeyMap (chunks ++ [c]) = insertKeyMap (buildKeyMap chunks) k c := by
  unfold buildKeyMap
  rw [List.foldl_append]
  simp [hc]

theorem keys_insertKeyMap (m : List (String × ActChunk)) (k : String) (v : ActChunk) :
    (insertKeyMap m k v).map Prod.fst =
      if m.any (fun q => q.1 = k) then m.map Prod.fst
      else m.map Prod.fst ++ [k] := by
  unfold insertKeyMap
  by_cases h : m.any (fun q => q.1 = k) = true
  · simp only [h, if_true, List.map_map]
    refine List.map_congr_left ?_
    intro p _
    by_cases hp : p.1 = k
    · simp [hp]
    · simp [hp]
  · have hfalse : m.any (fun q => q.1 = k) = false := Bool.eq_false_iff.mpr h
    simp [hfalse]

theorem keys_nodup_insertKeyMap (m : List (String × ActChunk)) (k : String)
    (v : ActChunk) (hm : (m.map Prod.fst).Nodup) :
    ((insertKeyMap m k v).map Prod.fst).Nodup := by
  rw [keys_insertKeyMap]
  by_cases h : m.any (fun q => q.1 = k) = true
  · simpa [h] using hm
  · have hfalse : m.any (fun q => q.1 = k) = false := Bool.eq_false_iff.mpr h
    have hnotin : k ∉ m.map Prod.fst := by
      intro hk
      obtain ⟨p, hp, hpk⟩ := List.mem_map.mp hk
      have := List.any_eq_false.mp hfalse p hp
      simp [hpk] at this
    simp only [hfalse, Bool.false_eq_true, if_false]
    rw [List.nodup_append]
    exact ⟨hm, List.nodup_singleton k, by
      intro a ha hb
      rw [List.mem_singleton] at hb
      exact hnotin (hb ▸ ha)⟩

theorem buildKeyMap_keys_nodup_from (m : List (String × ActChunk))
    (hm : (m.map Prod.fst).Nodup) :
    ∀ (chunks : List ActChunk),
      ((chunks.foldl (fun m c =>
        match extractArticleNumber c.text with
        | some k => insertKeyMap m k c
        | none => m) m).map Prod.fst).Nodup := by
  intro chunks
  induction chunks generalizing m with
  | nil => exact hm
  | cons c rest ih =>
    rw [List.foldl_cons]
    cases hc : extractArticleNumber c.text with
    | none => exact ih m hm
    | some k => exact ih (insertKeyMap m k c) (keys_nodup_insertKeyMap m k c hm)

/-- The article keys of `buildKeyMap` are pairwise distinct. -/
theorem buildKeyMap_keys_nodup (chunks : List ActChunk) :
    ((buildKeyMap chunks).map Prod.fst).Nodup :=
  buildKeyMap_keys_nodup_from [] (by simp) chunks

/-- The keys of a key-tagged `filterMap` form a sublist of the scanned key
list. -/
theorem map_fst_filterMap_sublist {B : Type} :
    ∀ (l : List String) (f : String → Option (String × B)),
      (∀ a x, f a = some x → x.1 = a) →
      ((l.filterMap f).map Prod.fst).Sublist l
  | [], _, _ => by simp
  | a :: rest, f, hf => by
    cases hfa : f a with
    | none =>
      simpa [hfa] using (map_fst_filterMap_sublist rest f hf).cons a
    | some x =>
      have hx : x.1 = a := hf a x hfa
      simpa [hfa, hx] using (map_fst_filterMap_sublist rest f hf).cons₂ a

/-- The three key sets scanned by `_analyze_changes` (intersection and both
differences) are pairwise disjoint and each duplicate-free. -/
theorem nodup_triple_key_parts (cKeys dKeys : List String)
    (hnc : cKeys.Nodup) (hnd : dKeys.Nodup) :
    ((cKeys.filter (fun a => dKeys.contains a)) ++
     (cKeys.filter (fun a => !(dKeys.contains a))) ++
     (dKeys.filter (fun a => !(cKeys.contains a)))).Nodup := by
  rw [List.nodup_append]
  refine ⟨?_, hnd.filter _, ?_⟩
  · rw [List.nodup_append]
    refine ⟨hnc.filter _, hnc.filter _, ?_⟩
    intro a ha hb
    have hpa := (List.mem_filter.mp ha).2
    have hpb := (List.mem_filter.mp hb).2
    rw [hpa] at hpb
    simp at hpb
  · intro a ha hb
    have haC : a ∈ cKeys := by
      rcases List.mem_append.mp ha with h1 | h1
      · exact (List.mem_filter.mp h1).1
      · exact (List.mem_filter.mp h1).1
    have hpb := (List.mem_filter.mp hb).2
    simp at hpb
    exact hpb haC

theorem fstOfModifiedEntry (cmap dmap : List (String × ActChunk)) (sim : SimFn)
    (threshold : ℚ) (changingActId changedActId : Nat) :
    ∀ (a : String) (x : String × ActChangeAnalysis),
      (match lookupKeyMap cmap a, lookupKeyMap dmap a with
       | some cc, some dc =>
         if cc.text ≠ dc.text then
           if sim cc dc < threshold then
             some (a, { changingActId := changingActId, changedActId := changedActId,
                        changingChunkId := cc.id, changedChunkId := dc.id,
                        changeType := "modified" })
           else none
         else none
       | _, _ => none) = some x → x.1 = a := by
  intro a x hfa
  cases h1 : lookupKeyMap cmap a with
  | none => rw [h1] at hfa; cases h2 : lookupKeyMap dmap a <;> rw [h2] at hfa <;> simp at hfa
  | some cc =>
    cases h2 : lookupKeyMap dmap a with
    | none => rw [h1, h2] at hfa; simp at hfa
    | some dc =>
      rw [h1, h2] at hfa
      simp at hfa
      obtain ⟨hT, hS, heq⟩ := hfa
      exact (congrArg Prod.fst heq).symm

/-- Every record built by `_analyze_changes` is tagged with a key from one of
three pairwise-disjoint duplicate-free key sets, so the instrumented record
list carries pairwise distinct keys: at most one change record per article
key per pair. -/
theorem analyzeChangesKeyed_keys_nodup (sim : SimFn) (threshold : ℚ)
    (changingActId changedActId : Nat) (cg cd : List ActChunk) :
    ((analyzeChangesKeyed sim threshold changingActId changedActId cg cd).map
      Prod.fst).Nodup := by
  have hparts := nodup_triple_key_parts
    ((buildKeyMap cg).map Prod.fst) ((buildKeyMap cd).map Prod.fst)
    (buildKeyMap_keys_nodup cg) (buildKeyMap_keys_nodup cd)
  have hsub : ((analyzeChangesKeyed sim threshold changingActId changedActId cg cd).map
      Prod.fst).Sublist
      ((((buildKeyMap cg).map Prod.fst).filter
          (fun a => ((buildKeyMap cd).map Prod.fst).contains a)) ++
       (((buildKeyMap cg).map Prod.fst).filter
          (fun a => !(((buildKeyMap cd).map Prod.fst).contains a))) ++
       (((buildKeyMap cd).map Prod.fst).filter
          (fun a => !(((buildKeyMap cg).map Prod.fst).contains a)))) := by
    simp only [analyzeChangesKeyed]
    rw [List.map_append, List.map_append]
    refine ((map_fst_filterMap_sublist _ _ ?_).append
      (map_fst_filterMap_sublist _ _ ?_)).append
      (map_fst_filterMap_sublist _ _ ?_)
    · exact fstOfModifiedEntry (buildKeyMap cg) (buildKeyMap cd) sim threshold
        changingActId changedActId
    · intro a x hfa
      cases h1 : lookupKeyMap (buildKeyMap cg) a with
      | none => rw [h1] at hfa; simp at hfa
      | some cc =>
        rw [h1] at hfa
        exact (congrArg Prod.fst (Option.some.inj hfa)).symm
    · intro a x hfa
      cases h1 : lookupKeyMap (buildKeyMap cd) a with
      | none => rw [h1] at hfa; simp at hfa
      | some dc =>
        rw [h1] at hfa
        exact (congrArg Prod.fst (Option.some.inj hfa)).symm
  exact hparts.sublist hsub

/-- Claim C10: when two fragments of one act share an extracted article key,
the later fragment silently overwrites the earlier one in the key map (so the
earlier duplicate is ignored with no record and no error), and
`_analyze_changes` produces at most one change record per article key: the
instrumented record list carries pairwise distinct keys and projects onto the
record list. -/
theorem analyzeChanges_duplicate_key_overwrite :
    (∀ (chunks : List ActChunk) (c : ActChunk) (k : String),
        extractArticleNumber c.text = some k →
        lookupKeyMap (buildKeyMap (chunks ++ [c])) k = some c)
  ∧ (∀ (sim : SimFn) (threshold : ℚ) (changingActId changedActId : Nat)
        (cg cd : List ActChunk),
        ((analyzeChangesKeyed sim threshold changingActId changedActId cg cd).map
          Prod.fst).Nodup ∧
        analyzeChanges sim threshold changingActId changedActId cg cd =
          (analyzeChangesKeyed sim threshold changingActId changedActId cg cd).map
            Prod.snd) := by
  constructor
  · intro chunks c k hc
    rw [buildKeyMap_append_keyed chunks c k hc]
    exact lookup_insertKeyMap_self (buildKeyMap chunks) k c
  · intro sim threshold changingActId changedActId cg cd
    exact ⟨analyzeChangesKeyed_keys_nodup sim threshold changingActId changedActId cg cd,
      rfl⟩

/-- Witness for C10: two fragments of one act both keyed "Art. 7."; the map
holds the later fragment, and on the running example the keyed record list
has pairwise distinct keys. -/
theorem analyzeChanges_duplicate_key_overwrite_witness :
    lookupKeyMap (buildKeyMap ([dupEarlier] ++ [dupLater])) "Art. 7." = some dupLater ∧
    ((analyzeChangesKeyed simOne defaultThreshold 10 20 exChangingChunks
      exChangedChunks).map Prod.fst).Nodup :=
  ⟨analyzeChanges_duplicate_key_overwrite.1 [dupEarlier] dupLater "Art. 7." (by decide),
   (analyzeChanges_duplicate_key_overwrite.2 simOne defaultThreshold 10 20
     exChangingChunks exChangedChunks).1⟩

/-! ### Summarizer behaviour under unmodified feedback (claim C2, amended) -/

/-- Assigning an LLM summary changes only `text` and `flag`. -/
theorem embedding_applySummary (resp : SummaryResponse) (c : ChunkClusterBase) :
    (applySummary resp c).embedding = c.embedding := by
  cases hs : resp.summary <;> cases hf : resp.flag <;> simp [applySummary, hs, hf]

theorem map_proj_modifyNth {A B : Type} (g : A → B) (f : A → A)
    (hgf : ∀ a, g (f a) = g a) : ∀ (n : Nat) (l : List A),
    (modifyNth f n l).map g = l.map g
  | n, [] => by cases n <;> rfl
  | 0, a :: as => by simp [modifyNth, hgf]
  | n + 1, a :: as => by simp [modifyNth, map_proj_modifyNth g f hgf n as]

theorem map_embedding_applyBatchResults :
    ∀ (resps : List (Nat × SummaryResponse)) (positions : List Nat)
      (cs : List ChunkClusterBase),
      (applyBatchResults positions resps cs).map (fun c => c.embedding) =
        cs.map (fun c => c.embedding)
  | [], _, _ => rfl
  | r :: rest, positions, cs => by
    have hunfold : applyBatchResults positions (r :: rest) cs =
        applyBatchResults positions rest
          (match positions.get? r.1 with
           | some pos => modifyNth (applySummary r.2) pos cs
           | none => cs) := rfl
    rw [hunfold]
    cases hp : positions.get? r.1 with
    | none =>
      exact map_embedding_applyBatchResults rest positions cs
    | some pos =>
      show (applyBatchResults positions rest
        (modifyNth (applySummary r.2) pos cs)).map (fun c => c.embedding) =
        cs.map (fun c => c.embedding)
      rw [map_embedding_applyBatchResults rest positions _]
      exact map_proj_modifyNth _ _ (embedding_applySummary r.2) pos cs

theorem length_applyBatchResults (resps : List (Nat × SummaryResponse))
    (positions : List Nat) (cs : List ChunkClusterBase) :
    (applyBatchResults positions resps cs).length = cs.length := by
  have h := congrArg List.length (map_embedding_applyBatchResults resps positions cs)
  simpa using h

/-- A chunk set with any missing embedding clusters to the empty list. -/
theorem cluster_nil_of_any_none (labelsFn : LabelsFn) (chunks : List ChunkBase)
    (numClusters : Nat)
    (h : chunks.any (fun c => c.embedding.isNone) = true) :
    cluster labelsFn chunks numClusters = [] := by
  cases chunks with
  | nil => simp at h
  | cons a as => simp [cluster, h]

theorem cluster_length (labelsFn : LabelsFn) (chunks : List ChunkBase)
    (numClusters : Nat) (hne : chunks ≠ [])
    (hemb : ∀ c ∈ chunks, c.embedding.isSome) :
    (cluster labelsFn chunks numClusters).length = min numClusters chunks.length := by
  rw [cluster_eq_labelled labelsFn chunks numClusters hne hemb]
  simp [buildClusterLists_length]

theorem createBaseClusters_length (labelsFn : LabelsFn) (llm : LlmFn)
    (chunks : List ChunkBase) (referenceId maxClusters : Nat) (hne : chunks ≠ [])
    (hemb : ∀ c ∈ chunks, c.embedding.isSome) :
    (createBaseClusters labelsFn llm chunks referenceId maxClusters).length =
      min maxClusters chunks.length := by
  simp only [createBaseClusters]
  rw [length_applyBatchResults, List.length_map,
    cluster_length labelsFn chunks maxClusters hne hemb]

/-- Base-level cluster nodes carry no embedding: the clusterer creates them
with the default `None` and neither the reference/level assignment nor the
summary application touches the field. -/
theorem createBaseClusters_embedding_none (labelsFn : LabelsFn) (llm : LlmFn)
    (chunks : List ChunkBase) (referenceId maxClusters : Nat) (hne : chunks ≠ [])
    (hemb : ∀ c ∈ chunks, c.embedding.isSome) :
    ∀ c ∈ createBaseClusters labelsFn llm chunks referenceId maxClusters,
      c.embedding = none := by
  have hmap : (createBaseClusters labelsFn llm chunks referenceId maxClusters).map
      (fun c => c.embedding) =
      (buildClusterLists
        (chunks.zip (labelsFn (chunks.map (fun c => c.embedding.getD []))
          (min maxClusters chunks.length)))
        (List.replicate (min maxClusters chunks.length) [])).map
        (fun _ => (none : Option Emb)) := by
    simp only [createBaseClusters]
    rw [map_embedding_applyBatchResults, List.map_map,
      cluster_eq_labelled labelsFn chunks maxClusters hne hemb, List.map_map]
    exact List.map_congr_left (fun a _ => rfl)
  intro c hc
  have h1 : c.embedding ∈ (createBaseClusters labelsFn llm chunks referenceId
      maxClusters).map (fun c => c.embedding) := List.mem_map_of_mem _ hc
  rw [hmap] at h1
  obtain ⟨a, _, ha⟩ := List.mem_map.mp h1
  exact ha.symm

/-- Feeding at least two embedding-less cluster nodes into the next level
yields the empty level: the pseudo-chunks inherit `embedding = None`, so the
clusterer returns `[]`, no meta-group survives and no parent node is built. -/
theorem createNextLevelClusters_nil (labelsFn : LabelsFn) (llm : LlmFn)
    (prevClusters : List ChunkClusterBase) (referenceId level maxClusters : Nat)
    (h2 : 2 ≤ prevClusters.length)
    (hemb : ∀ c ∈ prevClusters, c.embedding = none) :
    createNextLevelClusters labelsFn llm prevClusters referenceId level maxClusters = [] := by
  have hgt : ¬ (prevClusters.length ≤ 1) := by omega
  have hany : (prevClusters.map (fun c =>
      ({ id := c.id, text := c.text, embedding := c.embedding } : ChunkBase))).any
      (fun c => c.embedding.isNone) = true := by
    cases prevClusters with
    | nil => simp at h2
    | cons p rest =>
      have hp : p.embedding = none := hemb p (by simp)
      simp [hp]
  simp only [createNextLevelClusters, if_neg hgt]
  rw [cluster_nil_of_any_none _ _ _ hany]
  rfl

theorem summarizeLoop_stop (labelsFn : LabelsFn) (llm : LlmFn)
    (referenceId maxClustersPerLevel level : Nat)
    (current : List ChunkClusterBase) (acc : List (List ChunkClusterBase))
    (h : ¬ 1 < current.length) :
    ∀ fuel, 1 ≤ fuel →
      summarizeLoop labelsFn llm referenceId maxClustersPerLevel fuel level current acc =
        (acc.reverse, some current.head?) := by
  intro fuel hf
  cases fuel with
  | zero => omega
  | succ f => rw [summarizeLoop, if_neg h]

theorem summarizeLoop_collapses (labelsFn : LabelsFn) (llm : LlmFn)
    (referenceId maxClustersPerLevel level : Nat)
    (current : List ChunkClusterBase) (acc : List (List ChunkClusterBase))
    (h2 : 2 ≤ current.length)
    (hemb : ∀ c ∈ current, c.embedding = none) :
    ∀ fuel, 2 ≤ fuel →
      summarizeLoop labelsFn llm referenceId maxClustersPerLevel fuel level current acc =
        (([] :: acc).reverse, some none) := by
  intro fuel hf
  obtain ⟨f, rfl⟩ : ∃ f, fuel = f + 2 := ⟨fuel - 2, by omega⟩
  have hlt : 1 < current.length := by omega
  rw [show f + 2 = (f + 1) + 1 from rfl, summarizeLoop, if_pos hlt]
  show summarizeLoop labelsFn llm referenceId maxClustersPerLevel (f + 1) (level + 1)
      (createNextLevelClusters labelsFn llm current referenceId (level + 1)
        (if current.length ≤ 3 then 1 else max 1 (maxClustersPerLevel / 2 ^ (level + 1))))
      (createNextLevelClusters labelsFn llm current referenceId (level + 1)
        (if current.length ≤ 3 then 1 else max 1 (maxClustersPerLevel / 2 ^ (level + 1)))
        :: acc) =
    (([] :: acc).reverse, some none)
  rw [createNextLevelClusters_nil labelsFn llm current referenceId (level + 1) _ h2 hemb]
  rw [summarizeLoop_stop labelsFn llm referenceId maxClustersPerLevel (level + 1) []
    ([] :: acc) (by simp) (f + 1) (by omega)]
  rfl

/-- Claim C2 (amended): for every non-empty fully-embedded fragment list (the
external k-means labelling well-formed) and `max_clusters_per_level = 8`,
driving `summarize` with unmodified feedback always terminates (the outcome
is already reached with loop fuel 2) after at most two yielded levels; it
ends with exactly one final node iff there is exactly one fragment, while for
two or more fragments the second yielded level is empty and the generator
returns `None`, because the fed-back cluster nodes carry no embeddings. -/
theorem summarize_unmodified_feedback (labelsFn : LabelsFn) (llm : LlmFn)
    (chunks : List ChunkBase) (referenceId fuel : Nat)
    (hne : chunks ≠ [])
    (hemb : ∀ c ∈ chunks, c.embedding.isSome)
    (hlen : (labelsFn (chunks.map (fun c => c.embedding.getD []))
        (min 8 chunks.length)).length = chunks.length)
    (hvalid : ∀ l ∈ labelsFn (chunks.map (fun c => c.embedding.getD []))
        (min 8 chunks.length), l < min 8 chunks.length)
    (hfuel : 2 ≤ fuel) :
    summarize labelsFn llm chunks referenceId 8 fuel =
      summarize labelsFn llm chunks referenceId 8 2 ∧
    (summarize labelsFn llm chunks referenceId 8 fuel).2.isSome ∧
    (summarize labelsFn llm chunks referenceId 8 fuel).1.length ≤ 2 ∧
    (chunks.length = 1 →
      ∃ node, (summarize labelsFn llm chunks referenceId 8 fuel).2 = some (some node)) ∧
    (2 ≤ chunks.length →
      (summarize labelsFn llm chunks referenceId 8 fuel).2 = some none ∧
      (summarize labelsFn llm chunks referenceId 8 fuel).1.length = 2) := by
  have hblen : (createBaseClusters labelsFn llm chunks referenceId 8).length =
      min 8 chunks.length :=
    createBaseClusters_length labelsFn llm chunks referenceId 8 hne hemb
  have hpos : 1 ≤ chunks.length := by
    cases chunks with
    | nil => exact absurd rfl hne
    | cons a as => simp
  rcases Nat.eq_or_lt_of_le hpos with h1 | h2
  · -- exactly one fragment: one base cluster, immediate return
    have hlen1 : chunks.length = 1 := h1.symm
    have hb1 : (createBaseClusters labelsFn llm chunks referenceId 8).length = 1 := by
      rw [hblen, hlen1]
      decide
    have hstop : ¬ 1 < (createBaseClusters labelsFn llm chunks referenceId 8).length := by
      omega
    have hrunF := summarizeLoop_stop labelsFn llm referenceId 8 0
      (createBaseClusters labelsFn llm chunks referenceId 8)
      [createBaseClusters labelsFn llm chunks referenceId 8] hstop fuel (by omega)
    have hrun2 := summarizeLoop_stop labelsFn llm referenceId 8 0
      (createBaseClusters labelsFn llm chunks referenceId 8)
      [createBaseClusters labelsFn llm chunks referenceId 8] hstop 2 (by omega)
    obtain ⟨b, hb⟩ : ∃ b, createBaseClusters labelsFn llm chunks referenceId 8 = [b] :=
      List.length_eq_one.mp hb1
    refine ⟨?_, ?_, ?_, ?_, ?_⟩
    · show summarizeLoop _ _ _ _ fuel 0 _ _ = summarizeLoop _ _ _ _ 2 0 _ _
      rw [hrunF, hrun2]
    · show (summarizeLoop _ _ _ _ fuel 0 _ _).2.isSome
      rw [hrunF]
      rfl
    · show (summarizeLoop _ _ _ _ fuel 0 _ _).1.length ≤ 2
      rw [hrunF]
      simp
    · intro _
      refine ⟨b, ?_⟩
      show (summarizeLoop _ _ _ _ fuel 0 _ _).2 = some (some b)
      rw [hrunF, hb]
      rfl
    · intro hcon
      omega
  · -- two or more fragments: the base level has at least two embedding-less
    -- nodes, the next level is empty and the run returns none
    have hb2 : 2 ≤ (createBaseClusters labelsFn llm chunks referenceId 8).length := by
      rw [hblen]
      omega
    have hembN := createBaseClusters_embedding_none labelsFn llm chunks referenceId 8
      hne hemb
    have hrunF := summarizeLoop_collapses labelsFn llm referenceId 8 0
      (createBaseClusters labelsFn llm chunks referenceId 8)
      [createBaseClusters labelsFn llm chunks referenceId 8] hb2 hembN fuel hfuel
    have hrun2 := summarizeLoop_collapses labelsFn llm referenceId 8 0
      (createBaseClusters labelsFn llm chunks referenceId 8)
      [createBaseClusters labelsFn llm chunks referenceId 8] hb2 hembN 2 (by omega)
    refine ⟨?_, ?_, ?_, ?_, ?_⟩
    · show summarizeLoop _ _ _ _ fuel 0 _ _ = summarizeLoop _ _ _ _ 2 0 _ _
      rw [hrunF, hrun2]
    · show (summarizeLoop _ _ _ _ fuel 0 _ _).2.isSome
      rw [hrunF]
      rfl
    · show (summarizeLoop _ _ _ _ fuel 0 _ _).1.length ≤ 2
      rw [hrunF]
      simp
    · intro hcon
      omega
    · intro _
      constructor
      · show (summarizeLoop _ _ _ _ fuel 0 _ _).2 = some none
        rw [hrunF]
      · show (summarizeLoop _ _ _ _ fuel 0 _ _).1.length = 2
        rw [hrunF]
        simp

/-- Witness for C2 (amended) at the two-fragment input: the run with fuel 5
matches the fuel-2 run, yields two levels, and returns `None`. -/
theorem summarize_unmodified_feedback_witness :
    summarize twoLabels llmTag [chunkA, chunkB] 7 8 5 =
      summarize twoLabels llmTag [chunkA, chunkB] 7 8 2 ∧
    (summarize twoLabels llmTag [chunkA, chunkB] 7 8 5).2.isSome ∧
    (summarize twoLabels llmTag [chunkA, chunkB] 7 8 5).1.length ≤ 2 ∧
    ([chunkA, chunkB].length = 1 →
      ∃ node, (summarize twoLabels llmTag [chunkA, chunkB] 7 8 5).2 = some (some node)) ∧
    (2 ≤ [chunkA, chunkB].length →
      (summarize twoLabels llmTag [chunkA, chunkB] 7 8 5).2 = some none ∧
      (summarize twoLabels llmTag [chunkA, chunkB] 7 8 5).1.length = 2) :=
  summarize_unmodified_feedback twoLabels llmTag [chunkA, chunkB] 7 5
    (by decide) (by decide) (by decide) (by decide) (by decide)

end Padwa
